import Mathlib

/-!
Shallow embedding of the DataUrl parser/serializer from silx/io/url.py.

Strings are modelled as `List Char`.  Python's exceptions are modelled by
`Option` results (`none` = an exception propagates to the caller).  The slice
items `Ellipsis`, `slice(None)` and `int` are modelled by the closed inductive
type `SliceItem`.
-/

set_option autoImplicit false

/-- A slice term as produced by `str_to_slice` in url.py: a Python `int`,
`slice(None)` (written `:`), or `Ellipsis` (written `...`). -/
inductive SliceItem : Type where
  | sliceInt (i : Int) : SliceItem
  | sliceAll : SliceItem
  | sliceEllipsis : SliceItem
deriving DecidableEq

/-- Python `s.split(sep, 1)` for a one-character separator `c`, returning
`some (before, after)` when `c` occurs in `s` (split at the first occurrence)
and `none` when it does not. -/
def splitOnceChar (c : Char) : List Char → Option (List Char × List Char)
  | [] => none
  | x :: xs =>
      if x = c then some ([], xs)
      else Option.map (fun q => (x :: q.1, q.2)) (splitOnceChar c xs)

/-- Python `s.split("::", 1)`: split at the first occurrence of the
two-character separator `::`, `none` when `::` does not occur in `s`. -/
def splitOnceDColon : List Char → Option (List Char × List Char)
  | [] => none
  | [_] => none
  | x :: y :: xs =>
      if x = ':' ∧ y = ':' then some ([], xs)
      else Option.map (fun q => (x :: q.1, q.2)) (splitOnceDColon (y :: xs))

/-- Python `s.split(c)` (full split) for a one-character separator. -/
def splitAllChar (c : Char) : List Char → List (List Char)
  | [] => [[]]
  | x :: xs =>
      if x = c then [] :: splitAllChar c xs
      else
        match splitAllChar c xs with
        | [] => [[x]]
        | h :: t => (x :: h) :: t

/-- Whitespace characters stripped by Python `int()` (ASCII subset). -/
def isPySpace (c : Char) : Bool :=
  c = ' ' || c = '\t' || c = '\n' || c = '\r' || c = Char.ofNat 11 || c = Char.ofNat 12

/-- Strip leading and trailing whitespace, as Python `int()` does. -/
def stripWs (s : List Char) : List Char :=
  ((s.dropWhile isPySpace).reverse.dropWhile isPySpace).reverse

/-- Digit-run accumulator for Python `int()`: decimal digits with single
underscores allowed only between digits. -/
def digitsToNat : Nat → List Char → Option Nat
  | acc, [] => some acc
  | acc, c :: rest =>
      if c.isDigit then digitsToNat (10 * acc + (c.toNat - 48)) rest
      else if c = '_' then
        match rest with
        | [] => none
        | d :: rest2 =>
            if d.isDigit then digitsToNat (10 * acc + (d.toNat - 48)) rest2 else none
      else none

/-- Nonempty digit run (first character must be a digit). -/
def pyNatDigits (s : List Char) : Option Nat :=
  match s with
  | [] => none
  | c :: rest => if c.isDigit then digitsToNat (c.toNat - 48) rest else none

/-- Python `int(string)` on a `str`: optional surrounding whitespace, optional
sign, nonempty decimal digit run (underscores between digits allowed);
`none` models the `ValueError` raised on any other input. -/
def pyInt (s : List Char) : Option Int :=
  match stripWs s with
  | '+' :: rest => Option.map Int.ofNat (pyNatDigits rest)
  | '-' :: rest => Option.map (fun n => -(Int.ofNat n)) (pyNatDigits rest)
  | rest => Option.map Int.ofNat (pyNatDigits rest)

/-- `str_to_slice` from `DataUrl.__parse_from_path`: `"..."` gives `Ellipsis`,
`":"` gives `slice(None)`, anything else goes through `int()`
(`none` = `ValueError`). -/
def str_to_slice (s : List Char) : Option SliceItem :=
  if s = ['.', '.', '.'] then some SliceItem.sliceEllipsis
  else if s = [':'] then some SliceItem.sliceAll
  else Option.map SliceItem.sliceInt (pyInt s)

/-- `tuple(str_to_slice(s) for s in terms)`: all terms must convert, the first
failing term aborts the whole conversion (`ValueError`). -/
def traverseSlice : List (List Char) → Option (List SliceItem)
  | [] => some []
  | t :: ts =>
      match str_to_slice t with
      | none => none
      | some v => Option.map (fun vs => v :: vs) (traverseSlice ts)

/-- The fields of a `DataUrl` object: `scheme`, `file_path`, `data_path`,
`data_slice`, the cached input string `__path` (called `stored_path` here,
since `path` is the name of the serializer method), and `is_valid`. -/
structure DataUrl : Type where
  scheme : Option (List Char)
  file_path : Option (List Char)
  data_path : Option (List Char)
  data_slice : Option (List SliceItem)
  stored_path : Option (List Char)
  is_valid : Bool
deriving DecidableEq

/-- The boolean computed by `DataUrl.__check_validity`. -/
def valid_of (u : DataUrl) : Bool :=
  if u.file_path = none ∨ u.file_path = some [] then false
  else
    match u.scheme with
    | none => true
    | some s =>
        if s = "fabio".data then decide (u.data_path = none)
        else if s = "silx".data then
          (decide (u.data_path = none) && decide (u.data_slice = none))
            || decide (u.data_path ≠ none)
        else false

/-- `DataUrl.__check_validity`: recompute the `is_valid` field from the other
attributes, leaving every other field unchanged. -/
def check_validity (u : DataUrl) : DataUrl :=
  { u with is_valid := valid_of u }

/-- The scheme/file split of `__parse_from_path` (lines 124-135):
`elements[0].split(":", 1)`; a candidate scheme token of length at most 2 is
treated as a Windows drive, giving no scheme and the whole first segment as
file part. -/
def schemeSplit (e0 : List Char) : Option (List Char) × List Char :=
  match splitOnceChar ':' e0 with
  | some q => if q.1.length ≤ 2 then (none, e0) else (some q.1, q.2)
  | none => (none, e0)

/-- The file-path normalization of `__parse_from_path` (lines 137-145): strip
a leading `///`; keep the result bare when it looks like a Windows drive path
(length > 2 with `:` at index 1 or 2), otherwise re-prepend a single `/`. -/
def normFilePath (fp : List Char) : List Char :=
  if ['/', '/', '/'].isPrefixOf fp then
    if 2 < (fp.drop 3).length ∧ ((fp.drop 3)[1]? = some ':' ∨ (fp.drop 3)[2]? = some ':')
    then fp.drop 3
    else '/' :: fp.drop 3
  else fp

/-- The selector handling of `__parse_from_path` (lines 151-170): split the
selector on the first `[`; an empty data path becomes `None`; a bracket part
must be closed by `]` with nothing after it and every comma-separated term
must convert through `str_to_slice`, otherwise the instance is marked invalid
with `data_slice` left unset. -/
def parseSelector (sch : Option (List Char)) (fp : List Char) (selector : List Char) :
    DataUrl :=
  match splitOnceChar '[' selector with
  | none =>
      check_validity
        ⟨sch, some fp, if selector = [] then none else some selector, none, none, false⟩
  | some q =>
      match splitOnceChar ']' q.2 with
      | none => ⟨sch, some fp, if q.1 = [] then none else some q.1, none, none, false⟩
      | some r =>
          if r.2 ≠ [] then ⟨sch, some fp, if q.1 = [] then none else some q.1, none, none, false⟩
          else
            match traverseSlice (splitAllChar ',' r.1) with
            | none => ⟨sch, some fp, if q.1 = [] then none else some q.1, none, none, false⟩
            | some items =>
                check_validity
                  ⟨sch, some fp, if q.1 = [] then none else some q.1, some items, none, false⟩

/-- `DataUrl.__parse_from_path` without the `__path` cache: split on the first
`::`, derive scheme and file path from the first segment, then handle the
optional selector segment. -/
def parse_core (p : List Char) : DataUrl :=
  match splitOnceDColon p with
  | none =>
      check_validity
        ⟨(schemeSplit p).1, some (normFilePath (schemeSplit p).2), none, none, none, false⟩
  | some q =>
      parseSelector (schemeSplit q.1).1 (normFilePath (schemeSplit q.1).2) q.2

/-- `DataUrl(path)`: construction from a path string; the original input is
cached in `__path`. -/
def DataUrl.fromPath (p : List Char) : DataUrl :=
  { parse_core p with stored_path := some p }

/-- `DataUrl(file_path=..., data_path=..., data_slice=..., scheme=...)`:
construction from explicit components (`__path = None`), followed by
`__check_validity`. -/
def DataUrl.fromComponents (fp dp : Option (List Char)) (ds : Option (List SliceItem))
    (sch : Option (List Char)) : DataUrl :=
  check_validity ⟨sch, fp, dp, ds, none, false⟩

/-- `DataUrl.is_absolute`: `none` models the `TypeError` raised by
`len(None)` when `file_path` is `None`. -/
def DataUrl.is_absolute (u : DataUrl) : Option Bool :=
  match u.file_path with
  | none => none
  | some fp =>
      if 0 < fp.length ∧ fp[0]? = some '/' then some true
      else if 2 < fp.length then
        some (decide (fp[1]? = some ':') || decide (fp[2]? = some ':'))
      else if 1 < fp.length then some (decide (fp[1]? = some ':'))
      else some false

/-- `slice_to_string` inside `DataUrl.path`: render one slice term. -/
def slice_to_string (s : SliceItem) : List Char :=
  match s with
  | SliceItem.sliceEllipsis => ['.', '.', '.']
  | SliceItem.sliceAll => [':']
  | SliceItem.sliceInt i => (toString i).data

/-- Python `",".join`. -/
def joinComma : List (List Char) → List Char
  | [] => []
  | [x] => x
  | x :: y :: rest => x ++ ',' :: joinComma (y :: rest)

/-- `DataUrl.path`: return the cached input string when the instance was
parsed; otherwise rebuild the string from the components.  `none` models the
`TypeError` propagating out of `is_absolute()` when `file_path` is `None` and
a scheme is present. -/
def DataUrl.path (u : DataUrl) : Option (List Char) :=
  match u.stored_path with
  | some p => some p
  | none =>
      let base := match u.file_path with | none => [] | some fp => fp
      let sel1 := match u.data_path with | none => [] | some dp => dp
      let sel2 :=
        match u.data_slice with
        | none => sel1
        | some items => sel1 ++ '[' :: (joinComma (items.map slice_to_string)) ++ [']']
      let full := if sel2 = [] then base else base ++ ':' :: ':' :: sel2
      match u.scheme with
      | none => some full
      | some sch =>
          match u.is_absolute with
          | none => none
          | some true =>
              if ['/'].isPrefixOf full then some (sch ++ ':' :: '/' :: '/' :: full)
              else some (sch ++ ':' :: '/' :: '/' :: '/' :: full)
          | some false => some (sch ++ ':' :: full)

/-- The segment of the input before the first `::` (the whole input when no
`::` occurs): `elements[0]` in `__parse_from_path`. -/
def firstSeg (s : List Char) : List Char :=
  match splitOnceDColon s with
  | none => s
  | some q => q.1

/-- Malformation predicate on the selector segment (the part after `::`), as
enumerated by the spec: an opening `[` with no closing `]`, trailing
characters after `]`, or a term that is neither a signed integer nor `:` nor
`...`. -/
def selectorMalformed (sel : List Char) : Bool :=
  match splitOnceChar '[' sel with
  | none => false
  | some q =>
      match splitOnceChar ']' q.2 with
      | none => true
      | some r =>
          if r.2 ≠ [] then true
          else (splitAllChar ',' r.1).any (fun t => (str_to_slice t).isNone)

/-! ### Helper lemmas -/

theorem check_validity_file_path (u : DataUrl) : (check_validity u).file_path = u.file_path :=
  rfl

theorem check_validity_scheme (u : DataUrl) : (check_validity u).scheme = u.scheme :=
  rfl

theorem fromPath_scheme (p : List Char) :
    (DataUrl.fromPath p).scheme = (parse_core p).scheme :=
  rfl

theorem fromPath_file_path (p : List Char) :
    (DataUrl.fromPath p).file_path = (parse_core p).file_path :=
  rfl

theorem fromPath_data_path (p : List Char) :
    (DataUrl.fromPath p).data_path = (parse_core p).data_path :=
  rfl

theorem fromPath_data_slice (p : List Char) :
    (DataUrl.fromPath p).data_slice = (parse_core p).data_slice :=
  rfl

theorem fromPath_is_valid (p : List Char) :
    (DataUrl.fromPath p).is_valid = (parse_core p).is_valid :=
  rfl

theorem fromPath_stored_path (p : List Char) :
    (DataUrl.fromPath p).stored_path = some p :=
  rfl

theorem parseSelector_file_path (sch : Option (List Char)) (fp sel : List Char) :
    (parseSelector sch fp sel).file_path = some fp := by
  unfold parseSelector
  repeat' split
  all_goals rfl

theorem parseSelector_scheme (sch : Option (List Char)) (fp sel : List Char) :
    (parseSelector sch fp sel).scheme = sch := by
  unfold parseSelector
  repeat' split
  all_goals rfl

/-! ### Claims -/

/-- C1: for every DataUrl `u` obtained by parsing a string `s` that parses as
valid, re-parsing `u.path()` yields a DataUrl whose `scheme`, `file_path`,
`data_path` and `data_slice` coincide with those of `u`.  (Immediate from the
code: a parsed instance caches the original input in `__path`, so `u.path()`
returns `s` itself and re-parsing is literally re-running the same parse.) -/
theorem claim_c1_roundtrip (s : List Char) (h : (DataUrl.fromPath s).is_valid = true) :
    ∃ t, (DataUrl.fromPath s).path = some t ∧
      (DataUrl.fromPath t).scheme = (DataUrl.fromPath s).scheme ∧
      (DataUrl.fromPath t).file_path = (DataUrl.fromPath s).file_path ∧
      (DataUrl.fromPath t).data_path = (DataUrl.fromPath s).data_path ∧
      (DataUrl.fromPath t).data_slice = (DataUrl.fromPath s).data_slice :=
  ⟨s, rfl, rfl, rfl, rfl, rfl⟩

/-- Witness for C1 at the concrete valid input `silx:///dir/a.h5::/g/d`. -/
theorem claim_c1_roundtrip_witness :
    (DataUrl.fromPath "silx:///dir/a.h5::/g/d".data).is_valid = true ∧
      ∃ t, (DataUrl.fromPath "silx:///dir/a.h5::/g/d".data).path = some t ∧
        (DataUrl.fromPath t).scheme = (DataUrl.fromPath "silx:///dir/a.h5::/g/d".data).scheme ∧
        (DataUrl.fromPath t).file_path =
          (DataUrl.fromPath "silx:///dir/a.h5::/g/d".data).file_path ∧
        (DataUrl.fromPath t).data_path =
          (DataUrl.fromPath "silx:///dir/a.h5::/g/d".data).data_path ∧
        (DataUrl.fromPath t).data_slice =
          (DataUrl.fromPath "silx:///dir/a.h5::/g/d".data).data_slice :=
  ⟨by decide, claim_c1_roundtrip "silx:///dir/a.h5::/g/d".data (by decide)⟩

/-- C2: parsing `silx:///data/image.h5::/data/dataset[1,5]` yields
scheme `silx`, file_path `/data/image.h5`, data_path `/data/dataset`,
data_slice `(1, 5)` and a valid instance. -/
theorem claim_c2_example_parse :
    (DataUrl.fromPath "silx:///data/image.h5::/data/dataset[1,5]".data).scheme
        = some "silx".data ∧
      (DataUrl.fromPath "silx:///data/image.h5::/data/dataset[1,5]".data).file_path
        = some "/data/image.h5".data ∧
      (DataUrl.fromPath "silx:///data/image.h5::/data/dataset[1,5]".data).data_path
        = some "/data/dataset".data ∧
      (DataUrl.fromPath "silx:///data/image.h5::/data/dataset[1,5]".data).data_slice
        = some [SliceItem.sliceInt 1, SliceItem.sliceInt 5] ∧
      (DataUrl.fromPath "silx:///data/image.h5::/data/dataset[1,5]".data).is_valid = true := by
  refine ⟨?_, ?_, ?_, ?_, ?_⟩ <;> decide

/-- C9: parsing is total (the embedding is a total function), `file_path` is a
string (never `None`) after parsing any input, and parsing the empty string
gives `file_path = ""` and an invalid instance. -/
theorem claim_c9_total_file_path :
    (∀ p : List Char, ∃ fp, (DataUrl.fromPath p).file_path = some fp) ∧
      (DataUrl.fromPath [] : DataUrl).file_path = some [] ∧
      (DataUrl.fromPath [] : DataUrl).is_valid = false := by
  refine ⟨fun p => ?_, rfl, rfl⟩
  rw [fromPath_file_path]
  unfold parse_core
  cases hd : splitOnceDColon p with
  | none => exact ⟨normFilePath (schemeSplit p).2, rfl⟩
  | some q => exact ⟨normFilePath (schemeSplit q.1).2, parseSelector_file_path _ _ _⟩

/-- C10: a DataUrl built from components with `file_path = None` makes
`is_absolute()` raise (`len(None)`), and therefore `path()` raises as well
whenever a scheme is present. -/
theorem claim_c10_none_file_path_raises (dp : Option (List Char))
    (ds : Option (List SliceItem)) (sch : Option (List Char)) :
    (DataUrl.fromComponents none dp ds sch).is_absolute = none ∧
      ∀ s : List Char, sch = some s → (DataUrl.fromComponents none dp ds sch).path = none := by
  refine ⟨rfl, fun s hs => ?_⟩
  subst hs
  rfl

/-- Witness for C10 with a concrete scheme and empty optional components. -/
theorem claim_c10_none_file_path_raises_witness :
    (DataUrl.fromComponents none none none (some "silx".data)).is_absolute = none ∧
      (DataUrl.fromComponents none none none (some "silx".data)).path = none :=
  ⟨(claim_c10_none_file_path_raises none none (some "silx".data)).1,
    (claim_c10_none_file_path_raises none none (some "silx".data)).2 "silx".data rfl⟩

theorem traverseSlice_eq_none {l : List (List Char)}
    (h : ∃ t ∈ l, str_to_slice t = none) : traverseSlice l = none := by
  induction l with
  | nil => simp at h
  | cons t ts ih =>
      obtain ⟨x, hx, hxn⟩ := h
      unfold traverseSlice
      rcases List.mem_cons.mp hx with he | hm
      · subst he
        rw [hxn]
      · cases hst : str_to_slice t with
        | none => rfl
        | some v => rw [ih ⟨x, hm, hxn⟩]; rfl

theorem parseSelector_malformed (sch : Option (List Char)) (fp sel : List Char)
    (h : selectorMalformed sel = true) : (parseSelector sch fp sel).is_valid = false := by
  unfold selectorMalformed at h
  unfold parseSelector
  cases hq : splitOnceChar '[' sel with
  | none => rw [hq] at h; exact absurd h (by simp)
  | some q =>
      simp only [hq] at h ⊢
      cases hr : splitOnceChar ']' q.2 with
      | none => simp only [hr]
      | some r =>
          simp only [hr] at h ⊢
          by_cases ha : r.2 = []
          · have ha2 : ¬(r.2 ≠ []) := fun hc => hc ha
            rw [if_neg ha2] at h ⊢
            have hex : ∃ t ∈ splitAllChar ',' r.1, str_to_slice t = none := by
              obtain ⟨x, hx1, hx2⟩ := List.any_eq_true.mp h
              exact ⟨x, hx1, Option.isNone_iff_eq_none.mp hx2⟩
            rw [traverseSlice_eq_none hex]
          · rw [if_pos ha]

/-- C3: for every input whose selector segment (the part after the first `::`)
is malformed — unterminated bracket, trailing characters after `]`, or a term
that is neither a signed integer nor `:` nor `...` — parsing produces an
instance with `is_valid() = False`.  The embedding of the parser is a total
function, which reflects that no exception escapes to the caller. -/
theorem claim_c3_malformed_selector_invalid (s a sel : List Char)
    (h1 : splitOnceDColon s = some (a, sel)) (h2 : selectorMalformed sel = true) :
    (DataUrl.fromPath s).is_valid = false := by
  rw [fromPath_is_valid]
  unfold parse_core
  rw [h1]
  exact parseSelector_malformed _ _ _ h2

/-- Witness for C3 at the concrete input `silx:///f.h5::/d[1,x]` from the
spec (the term `x` is not an integer, `:` or `...`). -/
theorem claim_c3_malformed_selector_invalid_witness :
    splitOnceDColon "silx:///f.h5::/d[1,x]".data = some ("silx:///f.h5".data, "/d[1,x]".data) ∧
      selectorMalformed "/d[1,x]".data = true ∧
      (DataUrl.fromPath "silx:///f.h5::/d[1,x]".data).is_valid = false :=
  ⟨by decide, by decide,
    claim_c3_malformed_selector_invalid "silx:///f.h5::/d[1,x]".data "silx:///f.h5".data
      "/d[1,x]".data (by decide) (by decide)⟩

/-- C4: with scheme `silx` and a nonempty file path, a component-built
DataUrl is valid exactly when the slice is absent or a data path is present;
this is the `slice_implies_data` condition of `__check_validity`. -/
theorem claim_c4_silx_validity (fp : List Char) (dp : Option (List Char))
    (ds : Option (List SliceItem)) (h : fp ≠ []) :
    (DataUrl.fromComponents (some fp) dp ds (some "silx".data)).is_valid = true ↔
      (ds = none ∨ dp ≠ none) := by
  have hfab : ¬("silx".data = "fabio".data) := by decide
  show valid_of ⟨some "silx".data, some fp, dp, ds, none, false⟩ = true ↔ ds = none ∨ dp ≠ none
  simp [valid_of, h, hfab]
  by_cases hdp : dp = none <;> simp [hdp]

/-- Witness for C4: `silx` with a data path and no slice is valid, and `silx`
with a slice but no data path is invalid. -/
theorem claim_c4_silx_validity_witness :
    (DataUrl.fromComponents (some "/a.h5".data) (some "/d".data) none
        (some "silx".data)).is_valid = true ∧
      (DataUrl.fromComponents (some "/a.h5".data) none (some [SliceItem.sliceInt 2])
        (some "silx".data)).is_valid = false :=
  ⟨(claim_c4_silx_validity "/a.h5".data (some "/d".data) none (by decide)).mpr
      (Or.inl rfl),
    by
      have h2 := claim_c4_silx_validity "/a.h5".data none (some [SliceItem.sliceInt 2])
        (by decide)
      revert h2
      decide⟩

theorem check_validity_unrecognized (u : DataUrl) (s : List Char) (hu : u.scheme = some s)
    (hf : s ≠ "fabio".data) (hx : s ≠ "silx".data) : (check_validity u).is_valid = false := by
  show valid_of u = false
  simp [valid_of, hu, hf, hx]

theorem parseSelector_unrecognized (sch : Option (List Char)) (fp sel : List Char)
    (s : List Char) (hu : sch = some s) (hf : s ≠ "fabio".data) (hx : s ≠ "silx".data) :
    (parseSelector sch fp sel).is_valid = false := by
  unfold parseSelector
  repeat' split
  all_goals first
    | rfl
    | exact check_validity_unrecognized _ s hu hf hx

/-- C5: any DataUrl whose scheme is a string other than `silx` and `fabio` is
invalid — both when built from explicit components (the validity check falls
into the final `else`) and when obtained by parsing any input string. -/
theorem claim_c5_unrecognized_scheme_invalid :
    (∀ (u : DataUrl) (s : List Char), u.scheme = some s → s ≠ "fabio".data →
      s ≠ "silx".data → (check_validity u).is_valid = false) ∧
      ∀ (p s : List Char), (DataUrl.fromPath p).scheme = some s → s ≠ "fabio".data →
        s ≠ "silx".data → (DataUrl.fromPath p).is_valid = false := by
  refine ⟨fun u s hu hf hx => check_validity_unrecognized u s hu hf hx, fun p s hu hf hx => ?_⟩
  rw [fromPath_scheme] at hu
  rw [fromPath_is_valid]
  unfold parse_core at hu ⊢
  cases hd : splitOnceDColon p with
  | none =>
      rw [hd] at hu
      exact check_validity_unrecognized _ s hu hf hx
  | some q =>
      rw [hd] at hu
      rw [parseSelector_scheme] at hu
      exact parseSelector_unrecognized _ _ _ s hu hf hx

/-- Witness for C5 at the parsed input `http://host/a.h5` (scheme `http`). -/
theorem claim_c5_unrecognized_scheme_invalid_witness :
    (DataUrl.fromPath "http://host/a.h5".data).scheme = some "http".data ∧
      (DataUrl.fromPath "http://host/a.h5".data).is_valid = false :=
  ⟨by decide,
    claim_c5_unrecognized_scheme_invalid.2 "http://host/a.h5".data "http".data (by decide)
      (by decide) (by decide)⟩

/-- C7: the `///` normalization of the file part: a leading `///` is
stripped; if the remainder has length > 2 with `:` at index 1 or 2 it is kept
as a Windows drive path, otherwise a single `/` is re-prepended; without a
leading `///` the file part is kept unmodified. -/
theorem claim_c7_triple_slash_normalization (fp : List Char) :
    (fp.take 3 = ['/', '/', '/'] →
      normFilePath fp =
        if 2 < (fp.drop 3).length ∧ ((fp.drop 3)[1]? = some ':' ∨ (fp.drop 3)[2]? = some ':')
        then fp.drop 3 else '/' :: fp.drop 3) ∧
      (fp.take 3 ≠ ['/', '/', '/'] → normFilePath fp = fp) := by
  have hiff : ['/', '/', '/'].isPrefixOf fp = true ↔ fp.take 3 = ['/', '/', '/'] := by
    rw [List.isPrefixOf_iff_prefix, List.prefix_iff_eq_take]
    exact ⟨fun h => h.symm, fun h => h.symm⟩
  constructor
  · intro h
    unfold normFilePath
    rw [if_pos (hiff.mpr h)]
  · intro h
    unfold normFilePath
    rw [if_neg (fun hc => h (hiff.mp hc))]

/-- Witness for C7: an absolute POSIX path gets `/` re-prepended, a Windows
drive path after `///` is kept bare, and a relative path is unmodified. -/
theorem claim_c7_triple_slash_normalization_witness :
    normFilePath "///data/image.h5".data = "/data/image.h5".data ∧
      normFilePath "///C:/data/image.edf".data = "C:/data/image.edf".data ∧
      normFilePath "./image.h5".data = "./image.h5".data :=
  ⟨((claim_c7_triple_slash_normalization "///data/image.h5".data).1 (by decide)).trans
      (by decide),
    ((claim_c7_triple_slash_normalization "///C:/data/image.edf".data).1 (by decide)).trans
      (by decide),
    (claim_c7_triple_slash_normalization "./image.h5".data).2 (by decide)⟩

theorem splitOnceChar_append (c : Char) (s : List Char) :
    ∀ (a b : List Char), splitOnceChar c s = some (a, b) → s = a ++ c :: b := by
  induction s with
  | nil => intro a b h; exact absurd h (by simp [splitOnceChar])
  | cons x xs ih =>
      intro a b h
      unfold splitOnceChar at h
      by_cases hx : x = c
      · rw [if_pos hx] at h
        simp only [Option.some.injEq, Prod.mk.injEq] at h
        obtain ⟨ha, hb⟩ := h
        subst ha
        subst hb
        rw [hx]
        rfl
      · rw [if_neg hx] at h
        rw [Option.map_eq_some'] at h
        obtain ⟨q, hq, hfq⟩ := h
        have hs := ih q.1 q.2 (by rw [hq])
        simp only [Prod.mk.injEq] at hfq
        obtain ⟨ha, hb⟩ := hfq
        subst ha
        subst hb
        rw [List.cons_append, ← hs]

theorem not_triple_slash_of_short_scheme (tok rest : List Char) (h : tok.length ≤ 2) :
    ['/', '/', '/'].isPrefixOf (tok ++ ':' :: rest) = false := by
  rcases tok with _ | ⟨c, _ | ⟨d, _ | ⟨e, tl⟩⟩⟩
  · rfl
  · simp only [List.cons_append, List.nil_append, List.isPrefixOf]
    rw [show (('/' : Char) == ':') = false from rfl]
    simp
  · simp only [List.cons_append, List.nil_append, List.isPrefixOf]
    rw [show (('/' : Char) == ':') = false from rfl]
    simp
  · rw [List.length_cons, List.length_cons, List.length_cons] at h
    omega

/-- C6: when the segment before any `::` contains a `:` and the candidate
scheme token (the text before the first `:`) has length at most 2, the parser
treats it as a Windows drive letter: `scheme = None` and `file_path` is the
whole first segment unchanged; in particular `C:/data/` parses to scheme
`None`, file_path `C:/data/`, and `is_absolute() = True`. -/
theorem claim_c6_short_scheme_token :
    (∀ (s tok rest : List Char), splitOnceChar ':' (firstSeg s) = some (tok, rest) →
      tok.length ≤ 2 →
      (DataUrl.fromPath s).scheme = none ∧
        (DataUrl.fromPath s).file_path = some (firstSeg s)) ∧
      ((DataUrl.fromPath "C:/data/".data).scheme = none ∧
        (DataUrl.fromPath "C:/data/".data).file_path = some "C:/data/".data ∧
        (DataUrl.fromPath "C:/data/".data).is_absolute = some true) := by
  constructor
  · intro s tok rest h hlen
    have hss : schemeSplit (firstSeg s) = (none, firstSeg s) := by
      unfold schemeSplit
      simp only [h]
      rw [if_pos hlen]
    have hnorm : normFilePath (firstSeg s) = firstSeg s := by
      have he := splitOnceChar_append ':' (firstSeg s) tok rest h
      unfold normFilePath
      rw [he, not_triple_slash_of_short_scheme tok rest hlen]
      simp
    rw [fromPath_scheme, fromPath_file_path]
    unfold parse_core
    cases hd : splitOnceDColon s with
    | none =>
        have hfs : firstSeg s = s := by unfold firstSeg; rw [hd]
        rw [hfs] at hss hnorm
        rw [check_validity_scheme, check_validity_file_path]
        constructor
        · show (schemeSplit s).1 = none
          rw [hss]
        · show some (normFilePath (schemeSplit s).2) = some (firstSeg s)
          rw [hss, hfs, hnorm]
    | some q =>
        have hfs : firstSeg s = q.1 := by unfold firstSeg; rw [hd]
        rw [hfs] at hss hnorm
        constructor
        · rw [parseSelector_scheme, hss]
        · rw [parseSelector_file_path, hss, hfs, hnorm]
  · exact ⟨by decide, by decide, by decide⟩

/-- Witness for C6 at the concrete input `C:/data/` (scheme token `C`). -/
theorem claim_c6_short_scheme_token_witness :
    splitOnceChar ':' (firstSeg "C:/data/".data) = some ("C".data, "/data/".data) ∧
      ("C".data : List Char).length ≤ 2 ∧
      ((DataUrl.fromPath "C:/data/".data).scheme = none ∧
        (DataUrl.fromPath "C:/data/".data).file_path = some (firstSeg "C:/data/".data)) :=
  ⟨by decide, by decide,
    claim_c6_short_scheme_token.1 "C:/data/".data "C".data "/data/".data (by decide)
      (by decide)⟩

theorem parseSelector_int_failure (sch : Option (List Char)) (fp sel dp0 rest content : List Char)
    (h2 : splitOnceChar '[' sel = some (dp0, rest))
    (h3 : splitOnceChar ']' rest = some (content, []))
    (h4 : ∃ t ∈ splitAllChar ',' content, str_to_slice t = none) :
    (parseSelector sch fp sel).data_slice = none ∧
      (parseSelector sch fp sel).data_path = (if dp0 = [] then none else some dp0) := by
  unfold parseSelector
  simp only [h2]
  simp only [h3]
  rw [if_neg (fun hc => hc rfl)]
  rw [traverseSlice_eq_none h4]
  exact ⟨rfl, rfl⟩

/-- C8: when parsing stops because a slice term does not convert to an
integer, `data_slice` stays `None` (no incomplete tuple is exposed) while
`data_path` keeps the value parsed from before the opening bracket. -/
theorem claim_c8_no_leftover_slice (s a sel dp0 rest content : List Char)
    (h1 : splitOnceDColon s = some (a, sel))
    (h2 : splitOnceChar '[' sel = some (dp0, rest))
    (h3 : splitOnceChar ']' rest = some (content, []))
    (h4 : ∃ t ∈ splitAllChar ',' content, str_to_slice t = none) :
    (DataUrl.fromPath s).data_slice = none ∧
      (DataUrl.fromPath s).data_path = (if dp0 = [] then none else some dp0) := by
  rw [fromPath_data_slice, fromPath_data_path]
  unfold parse_core
  simp only [h1]
  exact parseSelector_int_failure _ _ _ dp0 rest content h2 h3 h4

/-- Witness for C8 at the concrete input `a.h5::/g[3,:,zz]` (term `zz`
fails integer conversion; `3` and `:` had already converted). -/
theorem claim_c8_no_leftover_slice_witness :
    (∃ t ∈ splitAllChar ',' "3,:,zz".data, str_to_slice t = none) ∧
      (DataUrl.fromPath "a.h5::/g[3,:,zz]".data).data_slice = none ∧
      (DataUrl.fromPath "a.h5::/g[3,:,zz]".data).data_path =
        (if "/g".data = ([] : List Char) then none else some "/g".data) :=
  ⟨by decide,
    claim_c8_no_leftover_slice "a.h5::/g[3,:,zz]".data "a.h5".data "/g[3,:,zz]".data
      "/g".data "3,:,zz]".data "3,:,zz".data (by decide) (by decide) (by decide) (by decide)⟩
